import Mathlib

/-!
Verification of the receipt-management data layer and upload UI of the
receipto repository, shallowly embedded in Lean:
the SQL schema and seed scripts (src/db/init.sql and
src/api/migrations/001_settings_tables.sql) and the ReceiptDropzone
component (src/frontend/components/receipt-dropzone.tsx).
-/

namespace Receipto

/-- Row identifiers (UUIDs in the schema) are embedded as naturals. -/
abbrev UUID := Nat

/-- Timestamps are embedded as naturals. -/
abbrev Timestamp := Nat

/-- One row of the receipts table of init.sql.  Nullable columns are
Options; DECIMAL columns are embedded as exact rationals. -/
structure ReceiptRow where
  id : UUID
  image_url : String
  merchant_name : Option String := none
  purchase_date : Option Nat := none
  total_amount : Option ℚ := none
  tax_amount : Option ℚ := none
  status : Option String := some "pending"
  created_at : Timestamp
  updated_at : Timestamp
deriving DecidableEq

/-- The three status values admitted by the CHECK constraint on
receipts.status. -/
def receiptStatuses : List String := ["pending", "complete", "manual_review"]

/-- The constraint CHECK (status IN ('pending', 'complete', 'manual_review'))
under SQL three-valued logic: a CHECK is violated only when its expression
evaluates to FALSE, and NULL IN (...) evaluates to UNKNOWN, which passes.
The status column carries no NOT NULL clause. -/
def statusCheck : Option String → Bool
  | none => true
  | some s => receiptStatuses.contains s

/-- One row of the line_items table of init.sql. -/
structure LineItemRow where
  id : UUID
  receipt_id : UUID
  description : Option String := none
  category : Option String := none
  quantity : Option Int := some 1
  unit_price : Option ℚ := none
  total_price : Option ℚ := none
  created_at : Timestamp
deriving DecidableEq

/-- One row of the categories table (init.sql and the 001 migration agree on
name UNIQUE NOT NULL and a nullable monthly_budget_limit). -/
structure CategoryRow where
  id : UUID
  name : String
  monthly_budget_limit : Option ℚ := none
  created_at : Timestamp
deriving DecidableEq

/-- One row of the settings table of the 001 migration: key is the primary
key, value is NOT NULL, encrypted defaults to FALSE. -/
structure SettingRow where
  key : String
  value : String
  encrypted : Bool := false
  updated_at : Timestamp
deriving DecidableEq

/-- The database state: the four tables created by init.sql and the 001
migration. -/
structure DB where
  receipts : List ReceiptRow
  line_items : List LineItemRow
  categories : List CategoryRow
  settings : List SettingRow
deriving DecidableEq

/-- INSERT INTO receipts.  The status argument distinguishes an omitted
column (none, taking DEFAULT 'pending') from an explicit NULL (some none).
The insert fails (returns none) when the CHECK constraint on status
evaluates to FALSE or the primary key collides. -/
def insertReceipt (db : DB) (id : UUID) (image_url : String)
    (status? : Option (Option String)) (now : Timestamp) : Option DB :=
  if statusCheck (status?.getD (some "pending")) &&
      db.receipts.all (fun r => r.id != id) then
    some { db with receipts := db.receipts ++
      [{ id := id, image_url := image_url, status := status?.getD (some "pending"),
         created_at := now, updated_at := now }] }
  else none

/-- INSERT INTO line_items.  The quantity argument distinguishes an omitted
column (none, taking DEFAULT 1) from an explicit value or NULL; the schema
puts no CHECK on quantity.  receipt_id is NOT NULL REFERENCES receipts(id),
so the insert fails when the parent receipt is absent or the primary key
collides. -/
def insertLineItem (db : DB) (id : UUID) (receipt_id : UUID)
    (description category : Option String) (quantity? : Option (Option Int))
    (unit_price total_price : Option ℚ) (now : Timestamp) : Option DB :=
  if (db.line_items.all fun li => li.id != id) &&
      (db.receipts.any fun r => r.id == receipt_id) then
    some { db with line_items := db.line_items ++
      [{ id := id, receipt_id := receipt_id, description := description,
         category := category, quantity := quantity?.getD (some 1),
         unit_price := unit_price, total_price := total_price,
         created_at := now }] }
  else none

/-- DELETE FROM receipts WHERE id = rid.  The clause ON DELETE CASCADE on
line_items.receipt_id removes every child line item in the same single
statement: the embedding is one total function, so the removal of the
receipt and of its line items is one atomic step. -/
def deleteReceipt (db : DB) (rid : UUID) : DB :=
  { db with
    receipts := db.receipts.filter (fun r => r.id != rid),
    line_items := db.line_items.filter (fun li => li.receipt_id != rid) }

/-- The SET list of an UPDATE on receipts: none means the column is not in
the SET list; some v assigns v (for nullable columns, some none assigns
NULL). -/
structure ReceiptUpdate where
  image_url : Option String := none
  merchant_name : Option (Option String) := none
  purchase_date : Option (Option Nat) := none
  total_amount : Option (Option ℚ) := none
  tax_amount : Option (Option ℚ) := none
  status : Option (Option String) := none

/-- Applies the SET list of an UPDATE to one receipts row. -/
def applyReceiptUpdate (u : ReceiptUpdate) (r : ReceiptRow) : ReceiptRow :=
  { r with
    image_url := u.image_url.getD r.image_url,
    merchant_name := u.merchant_name.getD r.merchant_name,
    purchase_date := u.purchase_date.getD r.purchase_date,
    total_amount := u.total_amount.getD r.total_amount,
    tax_amount := u.tax_amount.getD r.tax_amount,
    status := u.status.getD r.status }

/-- The trigger function update_updated_at_column of init.sql: it sets
NEW.updated_at = CURRENT_TIMESTAMP and returns NEW. -/
def update_updated_at_column (now : Timestamp) (r : ReceiptRow) : ReceiptRow :=
  { r with updated_at := now }

/-- UPDATE receipts SET ... WHERE id = rid.  The BEFORE UPDATE trigger
update_receipts_updated_at runs update_updated_at_column FOR EACH ROW, and
the CHECK constraint on status is re-validated; the update fails (returns
none) when the new status of an updated row fails the CHECK. -/
def updateReceipt (db : DB) (rid : UUID) (u : ReceiptUpdate)
    (now : Timestamp) : Option DB :=
  if db.receipts.all
      (fun r => (r.id != rid) || statusCheck (applyReceiptUpdate u r).status) then
    some { db with receipts := db.receipts.map (fun r =>
      if r.id = rid then update_updated_at_column now (applyReceiptUpdate u r)
      else r) }
  else none

/-- INSERT INTO categories (name, monthly_budget_limit) VALUES (...)
ON CONFLICT (name) DO NOTHING: when a row with the same name exists the
statement is a no-op, otherwise a fresh row is appended. -/
def insertCategoryIfAbsent (db : DB) (id : UUID) (name : String)
    (lim : Option ℚ) (now : Timestamp) : DB :=
  if db.categories.any (fun c => c.name == name) then db
  else { db with categories := db.categories ++
    [{ id := id, name := name, monthly_budget_limit := lim, created_at := now }] }

/-- INSERT INTO settings (key, value, encrypted) VALUES (...)
ON CONFLICT (key) DO NOTHING: the seed path of the 001 migration. -/
def insertSettingIfAbsent (db : DB) (key value : String) (encrypted : Bool)
    (now : Timestamp) : DB :=
  if db.settings.any (fun s => s.key == key) then db
  else { db with settings := db.settings ++
    [{ key := key, value := value, encrypted := encrypted, updated_at := now }] }

/-- Modelled from the spec: the Settings Store set operation (the FastAPI
handler that implements it is not among the provided sources; only the
settings schema is).  Per the spec, set is an upsert keyed by key with
last-write-wins semantics and a refreshed updated_at, over the settings
table whose key column is the primary key. -/
def setSetting (db : DB) (key value : String) (encrypted : Bool)
    (now : Timestamp) : DB :=
  if db.settings.any (fun s => s.key == key) then
    { db with settings := db.settings.map (fun s =>
        if s.key == key then
          { s with value := value, encrypted := encrypted, updated_at := now }
        else s) }
  else { db with settings := db.settings ++
    [{ key := key, value := value, encrypted := encrypted, updated_at := now }] }

/-- The category seed of init.sql: the eleven default categories with their
monthly budget limits. -/
def initCategorySeed : List (String × Option ℚ) :=
  [("Groceries", some 400), ("Dining", some 300), ("Transportation", some 200),
   ("Utilities", some 250), ("Entertainment", some 150), ("Healthcare", some 200),
   ("Clothing", some 150), ("Home & Garden", some 100), ("Personal Care", some 100),
   ("Shopping", some 200), ("Other", some 100)]

/-- The category seed of the 001 migration: the same names with NULL
budget limits. -/
def migrationCategorySeed : List (String × Option ℚ) :=
  [("Groceries", none), ("Dining", none), ("Transportation", none),
   ("Utilities", none), ("Entertainment", none), ("Healthcare", none),
   ("Clothing", none), ("Home & Garden", none), ("Personal Care", none),
   ("Shopping", none), ("Other", none)]

/-- The settings seed of the 001 migration. -/
def defaultSettingsSeed : List (String × String × Bool) :=
  [("llm_provider", "gemini", false), ("llm_model", "gemini-2.0-flash", false),
   ("theme", "system", false)]

/-- Runs a category seed list through the ON CONFLICT DO NOTHING insert,
pairing each entry with a generated row id. -/
def runCategorySeed (seed : List (String × Option ℚ)) (db : DB)
    (ids : List UUID) (now : Timestamp) : DB :=
  (seed.zip ids).foldl
    (fun d p => insertCategoryIfAbsent d p.2 p.1.1 p.1.2 now) db

/-- Runs the settings seed list through the ON CONFLICT DO NOTHING insert. -/
def runSettingsSeed (seed : List (String × String × Bool)) (db : DB)
    (now : Timestamp) : DB :=
  seed.foldl (fun d x => insertSettingIfAbsent d x.1 x.2.1 x.2.2 now) db

/-- A browser File object as the dropzone sees it: name, MIME type and
size in bytes. -/
structure JSFile where
  name : String
  type : String
  size : Nat
deriving DecidableEq

/-- The MIME allowlist passed to useDropzone in receipt-dropzone.tsx. -/
def acceptedMimeTypes : List String :=
  ["image/jpeg", "image/png", "application/pdf"]

/-- The react-dropzone options relevant to drop handling. -/
structure DropzoneConfig where
  accept : List String
  maxFiles : Nat
  multiple : Bool
  disabled : Bool

/-- The useDropzone options from ReceiptDropzone: the accept allowlist,
maxFiles 1, multiple false, and disabled when the disabled prop is set or a
file is already selected. -/
def receiptDropzoneConfig (disabled : Bool) (selectedFile : Option JSFile) :
    DropzoneConfig :=
  { accept := acceptedMimeTypes, maxFiles := 1, multiple := false,
    disabled := disabled || selectedFile.isSome }

/-- A rejection record handed to onDrop by react-dropzone. -/
structure FileRejection where
  file : JSFile
  errors : List String
deriving DecidableEq

/-- Modelled from the react-dropzone library contract (an external
dependency of receipt-dropzone.tsx), split over the next three definitions:
each dropped file failing the accept matcher is rejected with error
file-invalid-type; then, when multiple is false and more than one file was
accepted, or maxFiles is positive and exceeded, every accepted file is
moved to the rejections with error too-many-files.  This definition gives
the type-based rejections of a drop, in drop order. -/
def typeRejections (accept : List String) (files : List JSFile) :
    List FileRejection :=
  (files.filter (fun f => !accept.contains f.type)).map
    (fun f => { file := f, errors := ["file-invalid-type"] })

/-- The files of a drop passing the accept matcher, in drop order. -/
def typeAccepted (accept : List String) (files : List JSFile) : List JSFile :=
  files.filter (fun f => accept.contains f.type)

/-- The partition of a drop into accepted files and rejections, continuing
the react-dropzone contract above. -/
def dropzonePartition (cfg : DropzoneConfig) (files : List JSFile) :
    List JSFile × List FileRejection :=
  if (!cfg.multiple && (typeAccepted cfg.accept files).length > 1) ||
      (cfg.multiple && decide (cfg.maxFiles ≥ 1) &&
        decide ((typeAccepted cfg.accept files).length > cfg.maxFiles)) then
    ([], typeRejections cfg.accept files ++
      (typeAccepted cfg.accept files).map
        (fun f => { file := f, errors := ["too-many-files"] }))
  else (typeAccepted cfg.accept files, typeRejections cfg.accept files)

/-- The externally observable calls the ReceiptDropzone component can make
while handling a drop. -/
inductive UIEffect where
  | callOnFileSelect (f : JSFile)
  | callOnFileRemove
  | consoleWarn (errors : List String)
deriving DecidableEq

/-- The onDrop callback of ReceiptDropzone: when there are accepted files it
passes the first one to onFileSelect, and when there are rejected files it
logs a console warning with the first rejection's errors. -/
def onDrop (acceptedFiles : List JSFile) (rejectedFiles : List FileRejection) :
    List UIEffect :=
  (match acceptedFiles with
   | [] => []
   | f :: _ => [UIEffect.callOnFileSelect f]) ++
  (match rejectedFiles with
   | [] => []
   | r :: _ => [UIEffect.consoleWarn r.errors])

/-- One drop event on the ReceiptDropzone: when the configured dropzone is
disabled (disabled prop, or a file already selected) react-dropzone does not
invoke onDrop at all; otherwise the dropped files are partitioned and onDrop
runs. -/
def dropOnReceiptDropzone (disabled : Bool) (selectedFile : Option JSFile)
    (files : List JSFile) : List UIEffect :=
  if (receiptDropzoneConfig disabled selectedFile).disabled then []
  else
    onDrop
      (dropzonePartition (receiptDropzoneConfig disabled selectedFile) files).1
      (dropzonePartition (receiptDropzoneConfig disabled selectedFile) files).2

/-- Whether a UI effect is a call to onFileSelect. -/
def isFileSelect : UIEffect → Bool
  | UIEffect.callOnFileSelect _ => true
  | _ => false

/-- Whether a UI effect is a call to onFileSelect or onFileRemove, the two
callbacks forming the component's contract with its caller. -/
def isCallerSignal : UIEffect → Bool
  | UIEffect.callOnFileSelect _ => true
  | UIEffect.callOnFileRemove => true
  | _ => false

/-- The unit suffixes of formatFileSize in receipt-dropzone.tsx. -/
def fileSizeUnits : List String := ["Bytes", "KB", "MB", "GB"]

/-- JS toFixed(2) on a non-negative value followed by parseFloat, embedded
over exact rationals: round to two decimal places. -/
def toFixed2 (q : ℚ) : ℚ := ((Int.floor (q * 100 + 1 / 2) : ℤ) : ℚ) / 100

/-- The outcome of formatFileSize: the numeric part and the unit suffix,
none standing for a JS undefined array read past the end of sizes. -/
structure FileSizeText where
  value : ℚ
  unit : Option String
deriving DecidableEq

/-- formatFileSize from receipt-dropzone.tsx with JS doubles embedded as
exact rationals: 0 yields the string 0 Bytes; otherwise
i = floor(log_1024 bytes), the value is bytes / 1024^i rounded to two
decimals (toFixed(2) then parseFloat) and the unit is sizes[i] — which is
undefined (none) when i runs past the end of the four-element sizes array. -/
def formatFileSize (bytes : Nat) : FileSizeText :=
  if bytes = 0 then { value := 0, unit := some "Bytes" }
  else
    { value := toFixed2 ((bytes : ℚ) / (1024 : ℚ) ^ Nat.log 1024 bytes),
      unit := fileSizeUnits[Nat.log 1024 bytes]? }

/-- No line item row exists without its parent receipt row. -/
def noOrphans (db : DB) : Prop :=
  ∀ li ∈ db.line_items, ∃ r ∈ db.receipts, r.id = li.receipt_id

/-- Every receipts row passes the status CHECK constraint. -/
def statusOk (db : DB) : Prop :=
  ∀ r ∈ db.receipts, statusCheck r.status = true

/-- Number of settings rows holding a given key. -/
def keyCount (db : DB) (k : String) : Nat :=
  db.settings.countP (fun s => s.key == k)

/-- Number of categories rows holding a given name. -/
def nameCount (db : DB) (n : String) : Nat :=
  db.categories.countP (fun c => c.name == n)

/-- The empty database, right after CREATE TABLE. -/
def emptyDB : DB := { receipts := [], line_items := [], categories := [], settings := [] }

/-- A database holding one pending receipt and its three line items
(the deletion scenario of the spec). -/
def dbScenarioE : DB :=
  { receipts := [{ id := 1, image_url := "r.jpg", created_at := 0, updated_at := 0 }],
    line_items :=
      [{ id := 10, receipt_id := 1, description := some "milk",
         category := some "Groceries", unit_price := some 3,
         total_price := some 3, created_at := 0 },
       { id := 11, receipt_id := 1, description := some "bread",
         category := some "Groceries", unit_price := some 2,
         total_price := some 2, created_at := 0 },
       { id := 12, receipt_id := 1, description := some "soap",
         category := some "Personal Care", unit_price := some 4,
         total_price := some 4, created_at := 0 }],
    categories := [], settings := [] }

/-- A database holding a single freshly created pending receipt. -/
def pendingDB : DB :=
  { receipts := [{ id := 1, image_url := "img.jpg", status := some "pending",
                   created_at := 5, updated_at := 5 }],
    line_items := [], categories := [], settings := [] }

/-- A database holding the seeded Groceries category. -/
def dbSeeded : DB :=
  { receipts := [], line_items := [],
    categories := [{ id := 1, name := "Groceries", monthly_budget_limit := some 400,
                     created_at := 0 }],
    settings := [] }

/-- A database holding one receipt and no line items. -/
def dbOneReceipt : DB :=
  { receipts := [{ id := 1, image_url := "r.jpg", created_at := 0, updated_at := 0 }],
    line_items := [], categories := [], settings := [] }

/-- A JPEG file as dropped on the dropzone. -/
def jpgFile : JSFile := { name := "r.jpg", type := "image/jpeg", size := 100 }

/-- A plain-text file, outside the MIME allowlist. -/
def txtFile : JSFile := { name := "notes.txt", type := "text/plain", size := 5 }

/-- C1: deleting a receipt removes every line item whose receipt_id
references it in the same atomic step (one total function application), so
afterwards no line item references the deleted receipt and the no-orphan
invariant is preserved. -/
theorem receipt_delete_cascade (db : DB) (rid : UUID) :
    (∀ li ∈ (deleteReceipt db rid).line_items, li.receipt_id ≠ rid) ∧
    (∀ r ∈ (deleteReceipt db rid).receipts, r.id ≠ rid) ∧
    (noOrphans db → noOrphans (deleteReceipt db rid)) := by
  refine ⟨?_, ?_, ?_⟩
  · intro li hli
    have h := List.of_mem_filter hli
    simpa using h
  · intro r hr
    have h := List.of_mem_filter hr
    simpa using h
  · intro h li hli
    have hmem : li ∈ db.line_items := List.mem_of_mem_filter hli
    have hne : li.receipt_id ≠ rid := by simpa using List.of_mem_filter hli
    obtain ⟨r, hr, hid⟩ := h li hmem
    refine ⟨r, List.mem_filter.mpr ⟨hr, ?_⟩, hid⟩
    simpa [hid] using hne

/-- Witness for C1 on the concrete three-line-item database. -/
theorem receipt_delete_cascade_witness :
    noOrphans dbScenarioE ∧ noOrphans (deleteReceipt dbScenarioE 1) :=
  ⟨by unfold noOrphans; decide,
   (receipt_delete_cascade dbScenarioE 1).2.2 (by unfold noOrphans; decide)⟩

/-- C2 (amended): every receipts row passes the status CHECK — its status is
NULL or one of pending, complete, manual_review — and this is preserved by
insert, update and delete; a receipt created without the status column
defaults to pending. -/
theorem receipts_status_invariant (db db' : DB) (id : UUID) (url : String)
    (status? : Option (Option String)) (now : Timestamp) (rid : UUID)
    (u : ReceiptUpdate) :
    (statusOk db → insertReceipt db id url status? now = some db' → statusOk db') ∧
    (statusOk db → updateReceipt db rid u now = some db' → statusOk db') ∧
    (statusOk db → statusOk (deleteReceipt db rid)) ∧
    (insertReceipt db id url none now = some db' →
      db'.receipts = db.receipts ++
        [{ id := id, image_url := url, status := some "pending",
           created_at := now, updated_at := now }]) := by
  refine ⟨?_, ?_, ?_, ?_⟩
  · intro hok h
    unfold insertReceipt at h
    split at h
    · rename_i hcond
      simp only [Bool.and_eq_true] at hcond
      obtain ⟨hchk, -⟩ := hcond
      cases h
      intro r hr
      rcases List.mem_append.mp hr with hr | hr
      · exact hok r hr
      · simp only [List.mem_singleton] at hr
        subst hr
        exact hchk
    · cases h
  · intro hok h
    unfold updateReceipt at h
    split at h
    · rename_i hcond
      cases h
      intro r hr
      obtain ⟨r0, hr0, hfr⟩ := List.mem_map.mp hr
      by_cases hid : r0.id = rid
      · have hall := List.all_eq_true.mp hcond r0 hr0
        have : statusCheck (applyReceiptUpdate u r0).status = true := by
          simpa [hid] using hall
        simp only [hid, if_true] at hfr
        subst hfr
        simpa [update_updated_at_column] using this
      · simp only [hid, if_false] at hfr
        subst hfr
        exact hok r0 hr0
    · cases h
  · intro hok r hr
    exact hok r (List.mem_of_mem_filter hr)
  · intro h
    unfold insertReceipt at h
    split at h
    · cases h
      rfl
    · cases h

/-- Witness for C2 (amended): the insert of a default-status receipt into
the empty database preserves the status invariant. -/
theorem receipts_status_invariant_witness :
    statusOk emptyDB ∧ statusOk pendingDB :=
  ⟨by unfold statusOk; decide,
   (receipts_status_invariant emptyDB pendingDB 1 "img.jpg" none 5 0 {}).1
     (by unfold statusOk; decide) (by decide)⟩

/-- C2 counterexample: the status column is nullable and the CHECK passes
NULL, so an insert with an explicit NULL status succeeds and leaves a row
whose status is none of pending, complete, manual_review. -/
theorem receipts_status_nullable_counterexample :
    (insertReceipt emptyDB 1 "img.jpg" (some none) 0).isSome = true ∧
    ((insertReceipt emptyDB 1 "img.jpg" (some none) 0).getD emptyDB).receipts.all
      (fun r => receiptStatuses.all (fun s => r.status != some s)) = true ∧
    ((insertReceipt emptyDB 1 "img.jpg" (some none) 0).getD emptyDB).receipts.length
      = 1 := by decide

/-- C3: inserting a category name that already exists via the
ON CONFLICT (name) DO NOTHING path is a no-op — no second row, the existing
row (its budget limit included) untouched — and every upsert preserves
name uniqueness. -/
theorem category_upsert_idempotent (db : DB) (id : UUID) (name : String)
    (lim : Option ℚ) (now : Timestamp) :
    (db.categories.any (fun c => c.name == name) = true →
      insertCategoryIfAbsent db id name lim now = db) ∧
    (∀ n, nameCount db n ≤ 1 →
      nameCount (insertCategoryIfAbsent db id name lim now) n ≤ 1) := by
  constructor
  · intro h
    simp [insertCategoryIfAbsent, h]
  · intro n h
    by_cases hex : db.categories.any (fun c => c.name == name) = true
    · simpa [insertCategoryIfAbsent, hex] using h
    · by_cases hn : name = n
      · subst hn
        have hzero : List.countP (fun c => c.name == name) db.categories = 0 := by
          rw [List.countP_eq_zero]
          intro c hc hcn
          exact hex (List.any_eq_true.mpr ⟨c, hc, hcn⟩)
        simp only [Bool.not_eq_true] at hex
        unfold nameCount insertCategoryIfAbsent
        rw [hex]
        simp [List.countP_append, List.countP_cons, hzero]
      · have hne : (name == n) = false := by simpa using hn
        simp only [Bool.not_eq_true] at hex
        unfold nameCount insertCategoryIfAbsent
        simp only [hex, Bool.false_eq_true, if_false, List.countP_append,
          List.countP_cons, List.countP_nil, hne]
        simpa [nameCount] using h

/-- Witness for C3: re-inserting the seeded Groceries category is a no-op
and keeps the name unique. -/
theorem category_upsert_idempotent_witness :
    insertCategoryIfAbsent dbSeeded 2 "Groceries" (some 500) 7 = dbSeeded ∧
    nameCount (insertCategoryIfAbsent dbSeeded 2 "Groceries" (some 500) 7)
      "Groceries" ≤ 1 :=
  ⟨(category_upsert_idempotent dbSeeded 2 "Groceries" (some 500) 7).1 (by decide),
   (category_upsert_idempotent dbSeeded 2 "Groceries" (some 500) 7).2 "Groceries"
     (by unfold nameCount; decide)⟩

/-- A set on the settings table leaves exactly one row for its key when the
key previously had at most one row. -/
lemma keyCount_setSetting (db : DB) (k v : String) (e : Bool) (t : Timestamp)
    (h : keyCount db k ≤ 1) : keyCount (setSetting db k v e t) k = 1 := by
  by_cases hex : db.settings.any (fun s => s.key == k) = true
  · have hpos : 0 < keyCount db k := by
      rw [keyCount, List.countP_pos_iff]
      exact List.any_eq_true.mp hex
    have hmapeq : keyCount (setSetting db k v e t) k = keyCount db k := by
      unfold keyCount setSetting
      simp only [hex, if_true, List.countP_map]
      congr 1
      funext s
      by_cases hk : (s.key == k) = true <;> simp [Function.comp, hk]
    omega
  · have hzero : keyCount db k = 0 := by
      rw [keyCount, List.countP_eq_zero]
      intro s hs hsk
      exact hex (List.any_eq_true.mpr ⟨s, hs, hsk⟩)
    unfold keyCount setSetting
    unfold keyCount at hzero
    simp [hex, List.countP_append, hzero]

/-- Every row holding the written key after a set carries the written value,
encrypted flag and timestamp. -/
lemma setSetting_key_fields (db : DB) (k v : String) (e : Bool) (t : Timestamp) :
    ∀ s ∈ (setSetting db k v e t).settings, s.key = k →
      s.value = v ∧ s.encrypted = e ∧ s.updated_at = t := by
  intro s hs hk
  unfold setSetting at hs
  by_cases hex : db.settings.any (fun x => x.key == k) = true
  · simp only [hex, if_true] at hs
    obtain ⟨s0, hs0, hfs⟩ := List.mem_map.mp hs
    by_cases h0 : (s0.key == k) = true
    · simp only [h0, if_true] at hfs
      subst hfs
      exact ⟨rfl, rfl, rfl⟩
    · simp only [h0] at hfs
      rw [if_neg (by simp)] at hfs
      · subst hfs
        exact absurd (by simpa using hk) (by simpa using h0)
  · simp only [hex, if_false] at hs
    rcases List.mem_append.mp hs with hs | hs
    · exact absurd (List.any_eq_true.mpr ⟨s, hs, by simpa using hk⟩) hex
    · simp only [List.mem_singleton] at hs
      subst hs
      exact ⟨rfl, rfl, rfl⟩

/-- C4: the Settings Store set is an upsert keyed by key with
last-write-wins semantics — two sequential writes to the same key leave
exactly one row for it, holding the second value, flag and timestamp. -/
theorem settings_set_last_write_wins (db : DB) (k v1 v2 : String)
    (e1 e2 : Bool) (t1 t2 : Timestamp) (h : keyCount db k ≤ 1) :
    keyCount (setSetting (setSetting db k v1 e1 t1) k v2 e2 t2) k = 1 ∧
    ∀ s ∈ (setSetting (setSetting db k v1 e1 t1) k v2 e2 t2).settings,
      s.key = k → s.value = v2 ∧ s.encrypted = e2 ∧ s.updated_at = t2 := by
  have h1 : keyCount (setSetting db k v1 e1 t1) k = 1 := keyCount_setSetting db k v1 e1 t1 h
  exact ⟨keyCount_setSetting _ k v2 e2 t2 (le_of_eq h1),
         setSetting_key_fields _ k v2 e2 t2⟩

/-- Witness for C4: writing the theme key twice into the empty store leaves
one row holding the second value. -/
theorem settings_set_last_write_wins_witness :
    keyCount (setSetting (setSetting emptyDB "theme" "light" false 1)
      "theme" "dark" false 2) "theme" = 1 :=
  (settings_set_last_write_wins emptyDB "theme" "light" "dark" false false 1 2
    (by unfold keyCount; decide)).1

/-- C7 (amended): a line item inserted without the quantity column gets the
DEFAULT of 1; the schema does not constrain the value otherwise. -/
theorem line_item_quantity_default (db db' : DB) (id rid : UUID)
    (descr cat : Option String) (up tp : Option ℚ) (now : Timestamp)
    (h : insertLineItem db id rid descr cat none up tp now = some db') :
    ∃ li, db'.line_items = db.line_items ++ [li] ∧
      li.quantity = some 1 ∧ li.receipt_id = rid := by
  unfold insertLineItem at h
  split at h
  · cases h
    exact ⟨_, rfl, rfl, rfl⟩
  · cases h

/-- Witness for C7 (amended): inserting a line item with no quantity into
the one-receipt database persists quantity 1. -/
theorem line_item_quantity_default_witness :
    ∃ li, ({ receipts := dbOneReceipt.receipts,
             line_items := [{ id := 2, receipt_id := 1, quantity := some 1,
                              created_at := 3 }],
             categories := [], settings := [] } : DB).line_items =
        dbOneReceipt.line_items ++ [li] ∧
      li.quantity = some 1 ∧ li.receipt_id = 1 :=
  line_item_quantity_default dbOneReceipt
    { receipts := dbOneReceipt.receipts,
      line_items := [{ id := 2, receipt_id := 1, quantity := some 1, created_at := 3 }],
      categories := [], settings := [] }
    2 1 none none none none 3 (by decide)

/-- C7 counterexample: the schema has no CHECK on quantity, so an insert
with an explicit quantity of 0 succeeds and persists a line item whose
quantity is below 1. -/
theorem line_item_quantity_counterexample :
    (insertLineItem dbOneReceipt 2 1 none none (some (some 0)) none none 0).map
        (fun d => d.line_items.map LineItemRow.quantity) = some [some 0] ∧
    ¬ (1 ≤ (0 : Int)) := by decide

/-- C8: any UPDATE on a receipts row runs the BEFORE UPDATE trigger, which
refreshes updated_at to the statement timestamp, whatever SET list was
given. -/
theorem receipt_update_refreshes_updated_at (db db' : DB) (rid : UUID)
    (u : ReceiptUpdate) (now : Timestamp)
    (h : updateReceipt db rid u now = some db') :
    ∀ r ∈ db'.receipts, r.id = rid → r.updated_at = now := by
  unfold updateReceipt at h
  split at h
  · cases h
    intro r hr hrid
    obtain ⟨r0, hr0, hfr⟩ := List.mem_map.mp hr
    by_cases h0 : r0.id = rid
    · simp only [h0, if_true] at hfr
      subst hfr
      rfl
    · simp only [h0, if_false] at hfr
      subst hfr
      exact absurd hrid h0
  · cases h

/-- Witness for C8: updating the merchant name of the single receipt at
time 9 leaves its updated_at at 9. -/
theorem receipt_update_refreshes_updated_at_witness :
    ({ id := 1, image_url := "r.jpg", merchant_name := some "Walmart",
       created_at := 0, updated_at := 9 } : ReceiptRow).updated_at = 9 :=
  receipt_update_refreshes_updated_at dbOneReceipt
    { receipts := [{ id := 1, image_url := "r.jpg", merchant_name := some "Walmart",
                     created_at := 0, updated_at := 9 }],
      line_items := [], categories := [], settings := [] }
    1 { merchant_name := some (some "Walmart") } 9 (by decide)
    { id := 1, image_url := "r.jpg", merchant_name := some "Walmart",
      created_at := 0, updated_at := 9 }
    (by decide) rfl

/-- One ON CONFLICT DO NOTHING category insert either leaves the table
alone or appends one row. -/
lemma insertCategoryIfAbsent_categories (db : DB) (id : UUID) (n : String)
    (l : Option ℚ) (now : Timestamp) :
    (insertCategoryIfAbsent db id n l now).categories = db.categories ∨
    ∃ c, (insertCategoryIfAbsent db id n l now).categories =
      db.categories ++ [c] := by
  unfold insertCategoryIfAbsent
  split
  · exact Or.inl rfl
  · exact Or.inr ⟨_, rfl⟩

/-- One ON CONFLICT DO NOTHING category insert touches no other table. -/
lemma insertCategoryIfAbsent_frame (db : DB) (id : UUID) (n : String)
    (l : Option ℚ) (now : Timestamp) :
    (insertCategoryIfAbsent db id n l now).receipts = db.receipts ∧
    (insertCategoryIfAbsent db id n l now).line_items = db.line_items ∧
    (insertCategoryIfAbsent db id n l now).settings = db.settings := by
  unfold insertCategoryIfAbsent
  split <;> exact ⟨rfl, rfl, rfl⟩

/-- One ON CONFLICT DO NOTHING settings insert either leaves the table
alone or appends one row. -/
lemma insertSettingIfAbsent_settings (db : DB) (k v : String) (e : Bool)
    (now : Timestamp) :
    (insertSettingIfAbsent db k v e now).settings = db.settings ∨
    ∃ s, (insertSettingIfAbsent db k v e now).settings = db.settings ++ [s] := by
  unfold insertSettingIfAbsent
  split
  · exact Or.inl rfl
  · exact Or.inr ⟨_, rfl⟩

/-- One ON CONFLICT DO NOTHING settings insert touches no other table. -/
lemma insertSettingIfAbsent_frame (db : DB) (k v : String) (e : Bool)
    (now : Timestamp) :
    (insertSettingIfAbsent db k v e now).receipts = db.receipts ∧
    (insertSettingIfAbsent db k v e now).line_items = db.line_items ∧
    (insertSettingIfAbsent db k v e now).categories = db.categories := by
  unfold insertSettingIfAbsent
  split <;> exact ⟨rfl, rfl, rfl⟩

/-- A category seed run only ever appends to the categories table: every
pre-existing row keeps its position and contents. -/
lemma runCategorySeed_appendsOnly (seed : List (String × Option ℚ)) (db : DB)
    (ids : List UUID) (now : Timestamp) :
    ∃ t, (runCategorySeed seed db ids now).categories = db.categories ++ t := by
  unfold runCategorySeed
  generalize seed.zip ids = ps
  induction ps generalizing db with
  | nil => exact ⟨[], by simp⟩
  | cons p ps ih =>
    rw [List.foldl_cons]
    obtain ⟨t, ht⟩ := ih (insertCategoryIfAbsent db p.2 p.1.1 p.1.2 now)
    rcases insertCategoryIfAbsent_categories db p.2 p.1.1 p.1.2 now with hc | ⟨c, hc⟩
    · exact ⟨t, by rw [ht, hc]⟩
    · exact ⟨_, by rw [ht, hc, List.append_assoc]⟩

/-- A category seed run touches no other table. -/
lemma runCategorySeed_frame (seed : List (String × Option ℚ)) (db : DB)
    (ids : List UUID) (now : Timestamp) :
    (runCategorySeed seed db ids now).receipts = db.receipts ∧
    (runCategorySeed seed db ids now).line_items = db.line_items ∧
    (runCategorySeed seed db ids now).settings = db.settings := by
  unfold runCategorySeed
  generalize seed.zip ids = ps
  induction ps generalizing db with
  | nil => exact ⟨rfl, rfl, rfl⟩
  | cons p ps ih =>
    rw [List.foldl_cons]
    have hs := insertCategoryIfAbsent_frame db p.2 p.1.1 p.1.2 now
    have hi := ih (insertCategoryIfAbsent db p.2 p.1.1 p.1.2 now)
    exact ⟨hi.1.trans hs.1, hi.2.1.trans hs.2.1, hi.2.2.trans hs.2.2⟩

/-- A settings seed run only ever appends to the settings table. -/
lemma runSettingsSeed_appendsOnly (seed : List (String × String × Bool)) (db : DB)
    (now : Timestamp) :
    ∃ t, (runSettingsSeed seed db now).settings = db.settings ++ t := by
  unfold runSettingsSeed
  induction seed generalizing db with
  | nil => exact ⟨[], by simp⟩
  | cons x xs ih =>
    rw [List.foldl_cons]
    obtain ⟨t, ht⟩ := ih (insertSettingIfAbsent db x.1 x.2.1 x.2.2 now)
    rcases insertSettingIfAbsent_settings db x.1 x.2.1 x.2.2 now with hc | ⟨s, hc⟩
    · exact ⟨t, by rw [ht, hc]⟩
    · exact ⟨_, by rw [ht, hc, List.append_assoc]⟩

/-- A settings seed run touches no other table. -/
lemma runSettingsSeed_frame (seed : List (String × String × Bool)) (db : DB)
    (now : Timestamp) :
    (runSettingsSeed seed db now).receipts = db.receipts ∧
    (runSettingsSeed seed db now).line_items = db.line_items ∧
    (runSettingsSeed seed db now).categories = db.categories := by
  unfold runSettingsSeed
  induction seed generalizing db with
  | nil => exact ⟨rfl, rfl, rfl⟩
  | cons x xs ih =>
    rw [List.foldl_cons]
    have hs := insertSettingIfAbsent_frame db x.1 x.2.1 x.2.2 now
    have hi := ih (insertSettingIfAbsent db x.1 x.2.1 x.2.2 now)
    exact ⟨hi.1.trans hs.1, hi.2.1.trans hs.2.1, hi.2.2.trans hs.2.2⟩

/-- C9: re-running any of the ON CONFLICT DO NOTHING seed scripts never
overwrites prior state — the existing rows of the seeded table survive
unchanged as a prefix (so any administratively changed value, encrypted
flag or budget limit is kept), and no other table is touched. -/
theorem seed_rerun_preserves_rows (db : DB) (ids : List UUID) (now : Timestamp) :
    (∃ t, (runCategorySeed initCategorySeed db ids now).categories =
      db.categories ++ t) ∧
    (∃ t, (runCategorySeed migrationCategorySeed db ids now).categories =
      db.categories ++ t) ∧
    (∃ t, (runSettingsSeed defaultSettingsSeed db now).settings =
      db.settings ++ t) ∧
    (runCategorySeed initCategorySeed db ids now).settings = db.settings ∧
    (runSettingsSeed defaultSettingsSeed db now).categories = db.categories :=
  ⟨runCategorySeed_appendsOnly _ db ids now,
   runCategorySeed_appendsOnly _ db ids now,
   runSettingsSeed_appendsOnly _ db now,
   (runCategorySeed_frame _ db ids now).2.2,
   (runSettingsSeed_frame _ db now).2.2⟩

/-- Any onFileSelect call emitted by onDrop carries the first accepted
file. -/
lemma mem_onDrop_select {acc : List JSFile} {rej : List FileRejection}
    {f : JSFile} (h : UIEffect.callOnFileSelect f ∈ onDrop acc rej) :
    acc.head? = some f := by
  unfold onDrop at h
  rcases List.mem_append.mp h with h | h
  · cases acc with
    | nil => simp at h
    | cons a as =>
      simp only [List.mem_singleton, UIEffect.callOnFileSelect.injEq] at h
      simp [h]
  · cases rej with
    | nil => simp at h
    | cons r rs => simp at h

/-- onDrop never calls onFileRemove. -/
lemma onDrop_no_remove (acc : List JSFile) (rej : List FileRejection) :
    UIEffect.callOnFileRemove ∉ onDrop acc rej := by
  unfold onDrop
  intro h
  rcases List.mem_append.mp h with h | h
  · cases acc with
    | nil => simp at h
    | cons a as => simp at h
  · cases rej with
    | nil => simp at h
    | cons r rs => simp at h

/-- onDrop calls onFileSelect at most once. -/
lemma onDrop_select_count (acc : List JSFile) (rej : List FileRejection) :
    (onDrop acc rej).countP isFileSelect ≤ 1 := by
  unfold onDrop
  rw [List.countP_append]
  cases acc <;> cases rej <;> simp [isFileSelect]

/-- When a drop carries a rejection, onDrop logs a console warning. -/
lemma onDrop_warn_of_rej (acc : List JSFile) {rej : List FileRejection}
    (h : rej ≠ []) :
    ∃ errs, UIEffect.consoleWarn errs ∈ onDrop acc rej := by
  unfold onDrop
  cases rej with
  | nil => exact absurd rfl h
  | cons r rs =>
    exact ⟨r.errors, List.mem_append.mpr (Or.inr (by simp))⟩

/-- The accepted component of the partition is the type-accepted files of
the drop, or nothing at all in the too-many-files case. -/
lemma dropzonePartition_fst (cfg : DropzoneConfig) (files : List JSFile) :
    (dropzonePartition cfg files).1 = typeAccepted cfg.accept files ∨
    (dropzonePartition cfg files).1 = [] := by
  unfold dropzonePartition
  split
  · exact Or.inr rfl
  · exact Or.inl rfl

/-- When some dropped file fails the accept matcher, the partition carries
at least one rejection. -/
lemma dropzonePartition_snd_ne_nil {cfg : DropzoneConfig} {files : List JSFile}
    (h : ∃ f ∈ files, cfg.accept.contains f.type = false) :
    (dropzonePartition cfg files).2 ≠ [] := by
  obtain ⟨f, hf, hfc⟩ := h
  have hmem : f ∈ files.filter (fun x => !cfg.accept.contains x.type) :=
    List.mem_filter.mpr ⟨hf, by simp only [hfc, Bool.not_false]⟩
  have hrej : typeRejections cfg.accept files ≠ [] := by
    unfold typeRejections
    intro hnil
    rw [List.map_eq_nil_iff] at hnil
    rw [hnil] at hmem
    simp at hmem
  unfold dropzonePartition
  split
  · intro hnil
    have hlen := congrArg List.length hnil
    rw [List.length_append] at hlen
    simp only [List.length_nil, Nat.add_eq_zero] at hlen
    exact hrej (List.eq_nil_of_length_eq_zero hlen.1)
  · exact hrej

/-- Every onFileSelect call of a drop on the ReceiptDropzone carries the
first file of the drop passing the MIME allowlist. -/
lemma dropOn_select_head {d : Bool} {sel : Option JSFile} {files : List JSFile}
    {f : JSFile}
    (h : UIEffect.callOnFileSelect f ∈ dropOnReceiptDropzone d sel files) :
    (files.filter (fun x => acceptedMimeTypes.contains x.type)).head? = some f := by
  unfold dropOnReceiptDropzone at h
  split at h
  · simp at h
  · have hh := mem_onDrop_select h
    rcases dropzonePartition_fst (receiptDropzoneConfig d sel) files with hp | hp
    · rw [hp] at hh
      exact hh
    · rw [hp] at hh
      simp at hh

/-- Every file handed to onFileSelect by a drop passes the MIME allowlist. -/
lemma dropOn_select_type {d : Bool} {sel : Option JSFile} {files : List JSFile}
    {f : JSFile}
    (h : UIEffect.callOnFileSelect f ∈ dropOnReceiptDropzone d sel files) :
    acceptedMimeTypes.contains f.type = true := by
  have hh := dropOn_select_head h
  cases hfl : files.filter (fun x => acceptedMimeTypes.contains x.type) with
  | nil =>
    rw [hfl] at hh
    simp at hh
  | cons a as =>
    rw [hfl] at hh
    simp only [List.head?_cons, Option.some.injEq] at hh
    have hmem : f ∈ files.filter (fun x => acceptedMimeTypes.contains x.type) := by
      rw [hfl, ← hh]
      exact List.mem_cons_self a as
    simpa using (List.mem_filter.mp hmem).2

/-- A drop on the ReceiptDropzone never calls onFileRemove. -/
lemma dropOn_no_remove (d : Bool) (sel : Option JSFile) (files : List JSFile) :
    UIEffect.callOnFileRemove ∉ dropOnReceiptDropzone d sel files := by
  unfold dropOnReceiptDropzone
  split
  · simp
  · exact onDrop_no_remove _ _

/-- C6: the Upload UI takes one file per submission — only allowlisted MIME
types ever reach onFileSelect, at most the first accepted file of a drop is
passed, and while a file is selected the dropzone is disabled so a further
drop produces nothing. -/
theorem dropzone_single_file (d : Bool) (sel : Option JSFile)
    (files : List JSFile) :
    ((dropOnReceiptDropzone d sel files).countP isFileSelect ≤ 1) ∧
    (∀ f, UIEffect.callOnFileSelect f ∈ dropOnReceiptDropzone d sel files →
      acceptedMimeTypes.contains f.type = true ∧
      (files.filter (fun x => acceptedMimeTypes.contains x.type)).head? = some f) ∧
    (∀ g, sel = some g → dropOnReceiptDropzone d sel files = []) := by
  refine ⟨?_, ?_, ?_⟩
  · unfold dropOnReceiptDropzone
    split
    · simp
    · exact onDrop_select_count _ _
  · intro f h
    exact ⟨dropOn_select_type h, dropOn_select_head h⟩
  · intro g hg
    subst hg
    simp [dropOnReceiptDropzone, receiptDropzoneConfig]

/-- Witness for C6 on a concrete two-file drop (one JPEG, one text file)
and on a drop while a file is selected. -/
theorem dropzone_single_file_witness :
    acceptedMimeTypes.contains jpgFile.type = true ∧
    ([jpgFile, txtFile].filter
      (fun x => acceptedMimeTypes.contains x.type)).head? = some jpgFile ∧
    dropOnReceiptDropzone false (some jpgFile) [txtFile] = [] := by
  have h := (dropzone_single_file false none [jpgFile, txtFile]).2.1 jpgFile
    (by decide)
  exact ⟨h.1, h.2,
    (dropzone_single_file false (some jpgFile) [txtFile]).2.2 jpgFile rfl⟩

/-- C5 (amended): when an enabled dropzone receives a drop containing a
file outside the MIME allowlist, the rejection is signalled by a console
warning only — no rejected file reaches onFileSelect and onFileRemove is
never called, so no signal goes through the component's callback
contract. -/
theorem dropzone_rejection_console_only (d : Bool) (sel : Option JSFile)
    (files : List JSFile) (hd : d = false) (hs : sel = none)
    (hrej : ∃ f ∈ files, acceptedMimeTypes.contains f.type = false) :
    (∃ errs, UIEffect.consoleWarn errs ∈ dropOnReceiptDropzone d sel files) ∧
    (∀ f, UIEffect.callOnFileSelect f ∈ dropOnReceiptDropzone d sel files →
      acceptedMimeTypes.contains f.type = true) ∧
    UIEffect.callOnFileRemove ∉ dropOnReceiptDropzone d sel files := by
  subst hd
  subst hs
  refine ⟨?_, fun f h => dropOn_select_type h, dropOn_no_remove _ _ _⟩
  have hne : (dropzonePartition (receiptDropzoneConfig false none) files).2 ≠ [] :=
    dropzonePartition_snd_ne_nil hrej
  unfold dropOnReceiptDropzone
  rw [if_neg (by simp [receiptDropzoneConfig])]
  exact onDrop_warn_of_rej _ hne

/-- Witness for C5 (amended) on a concrete text-file drop. -/
theorem dropzone_rejection_console_only_witness :
    (∃ errs, UIEffect.consoleWarn errs ∈ dropOnReceiptDropzone false none [txtFile]) ∧
    (∀ f, UIEffect.callOnFileSelect f ∈ dropOnReceiptDropzone false none [txtFile] →
      acceptedMimeTypes.contains f.type = true) ∧
    UIEffect.callOnFileRemove ∉ dropOnReceiptDropzone false none [txtFile] :=
  dropzone_rejection_console_only false none [txtFile] rfl rfl
    ⟨txtFile, by decide, by decide⟩

/-- C5 counterexample: dropping one rejected file on the enabled dropzone
produces only a console warning — no onFileSelect or onFileRemove call, so
the rejection is not reported through the component's contract with the
pipeline trigger. -/
theorem dropzone_rejection_counterexample :
    dropOnReceiptDropzone false none [txtFile] =
      [UIEffect.consoleWarn ["file-invalid-type"]] ∧
    (dropOnReceiptDropzone false none [txtFile]).all
      (fun e => !isCallerSignal e) = true := by decide

/-- C10 (amended): formatFileSize is total on non-negative byte counts up
to but excluding 1024^4 — 0 yields exactly 0 Bytes, and every positive
count below 1024^4 yields the count scaled by 1024^i (rounded to two
decimals) with the unit at index i = floor(log_1024 bytes) of the
Bytes/KB/MB/GB list, which exists since i < 4. -/
theorem formatFileSize_total (bytes : Nat) (hub : bytes < 1024 ^ 4) :
    (bytes = 0 → formatFileSize bytes = { value := 0, unit := some "Bytes" }) ∧
    (0 < bytes →
      (formatFileSize bytes).value =
        toFixed2 ((bytes : ℚ) / (1024 : ℚ) ^ Nat.log 1024 bytes) ∧
      Nat.log 1024 bytes < fileSizeUnits.length ∧
      ∃ s, (formatFileSize bytes).unit = some s ∧ s ∈ fileSizeUnits) := by
  constructor
  · intro h
    subst h
    rfl
  · intro hpos
    have hne : bytes ≠ 0 := Nat.pos_iff_ne_zero.mp hpos
    have hlog : Nat.log 1024 bytes < 4 :=
      Nat.log_lt_of_lt_pow hne hub
    have hlen : Nat.log 1024 bytes < fileSizeUnits.length := by
      simpa [fileSizeUnits] using hlog
    refine ⟨?_, hlen, ?_⟩
    · unfold formatFileSize
      rw [if_neg hne]
    · refine ⟨fileSizeUnits.get ⟨Nat.log 1024 bytes, hlen⟩, ?_, List.get_mem _ _ _⟩
      unfold formatFileSize
      rw [if_neg hne]
      simp [List.getElem?_eq_getElem hlen]

/-- Witness for C10 (amended) at 2048 bytes. -/
theorem formatFileSize_total_witness :
    (2048 : Nat) < 1024 ^ 4 ∧
    ∃ s, (formatFileSize 2048).unit = some s ∧ s ∈ fileSizeUnits :=
  ⟨by norm_num,
   ((formatFileSize_total 2048 (by norm_num)).2 (by norm_num)).2.2⟩

/-- C10 counterexample: at 1024^4 bytes the unit index is 4, past the end
of the Bytes/KB/MB/GB list, so the suffix is a JS undefined (none) rather
than one of the four units. -/
theorem formatFileSize_counterexample :
    formatFileSize (1024 ^ 4) = { value := 1, unit := none } := by
  have hne : (1024 : Nat) ^ 4 ≠ 0 := by norm_num
  have hfloor : Int.floor ((1 : ℚ) * 100 + 1 / 2) = 100 := by
    rw [Int.floor_eq_iff]
    constructor <;> norm_num
  have hval : toFixed2 (((1024 ^ 4 : Nat) : ℚ) / (1024 : ℚ) ^ 4) = 1 := by
    rw [show (((1024 ^ 4 : Nat) : ℚ)) = (1024 : ℚ) ^ 4 by push_cast; ring,
      div_self (by norm_num)]
    unfold toFixed2
    rw [hfloor]
    norm_num
  unfold formatFileSize
  rw [if_neg hne, Nat.log_pow (by norm_num), hval]
  rfl

end Receipto
